import Mathlib

/-
Verification of the simulation core of the Snake game
(src/game.py and src/snake.py): direction-input resolution,
toroidal wrapping, snake movement / growth / self-collision,
food placement, scoring, and the per-tick driver.

Python tuples of integers become `Int × Int`; Python lists become
`List _`; Python `%` on integers (sign of the divisor, here always
non-negative for positive divisors) becomes `Int.emod`, which is Lean's
`%` on `Int`.  Mutating methods become functions returning the updated
state.  `random.randint` streams are modelled as an injected stream
`Nat → Pos` together with a cursor index, and the unbounded
rejection loop of `Food.respawn` as a fuel-indexed function returning
`none` when the fuel is exhausted before the loop exits.
-/

namespace SnakeGame

/-- A grid position, the `(x, y)` integer tuple of the Python code. -/
abbrev Pos := Int × Int

/-- The `Direction` enumeration, src/game.py lines 8-12. -/
inductive Direction
  | up
  | down
  | left
  | right
deriving DecidableEq

/-- `Direction.axis`, src/game.py lines 15-22: UP and DOWN yield `(0, 1)`,
LEFT and RIGHT yield `(1, 0)`. -/
def Direction.axis : Direction → Nat × Nat
  | .up => (0, 1)
  | .down => (0, 1)
  | .left => (1, 0)
  | .right => (1, 0)

/-- `Direction.apply`, src/game.py lines 25-36: the unwrapped neighbour of a
position in this direction. -/
def Direction.apply : Direction → Pos → Pos
  | .up, p => (p.1, p.2 - 1)
  | .down, p => (p.1, p.2 + 1)
  | .left, p => (p.1 - 1, p.2)
  | .right, p => (p.1 + 1, p.2)

/-- The game field, src/game.py lines 93-103: a square grid of side
`size` (the drawing attributes play no role in the simulation core). -/
structure Field where
  size : Int
deriving DecidableEq

/-- `Field.get_overflow_position`, src/game.py lines 102-103: reduce both
coordinates modulo the field size.  (src/snake.py lines 87-88 is the same
with a separate width and height; the game always builds a square field.) -/
def Field.get_overflow_position (f : Field) (pos : Pos) : Pos :=
  (pos.1 % f.size, pos.2 % f.size)

/-- A direction queue state, src/game.py lines 61-64: the committed
direction `current` and the buffered commands `queue`, oldest first. -/
structure DirectionQueue where
  current : Direction
  queue : List Direction
deriving DecidableEq

/-- `DirectionQueue.push`, src/game.py lines 66-67: append to the buffer. -/
def DirectionQueue.push (s : DirectionQueue) (d : Direction) : DirectionQueue :=
  ⟨s.current, s.queue ++ [d]⟩

/-- Index of the first list entry satisfying a test, if any.  This models
the Python idiom `next(i for i, x in enumerate(l) if test(x))` used over
the reversed queue in `_get_last_valid_index`. -/
def firstIdx {α : Type} (test : α → Bool) : List α → Option Nat
  | [] => none
  | d :: rest =>
      if test d then some 0
      else Option.map (fun i => i + 1) (firstIdx test rest)

/-- `DirectionQueue._get_last_valid_index`, src/game.py lines 78-86: scan
the reversed queue for the first entry whose axis differs from `current`'s
axis, and convert its reversed position `i` back to the queue index
`len - i - 1`; `none` when no entry qualifies. -/
def DirectionQueue.get_last_valid_index (s : DirectionQueue) : Option Nat :=
  Option.map (fun i => s.queue.length - i - 1)
    (firstIdx (fun d => decide (d.axis ≠ s.current.axis)) s.queue.reverse)

/-- `DirectionQueue.pop`, src/game.py lines 69-76: if the buffer holds a
valid (axis-changing) entry, commit the most recent one, delete it and
everything older (`del queue[: last_idx + 1]`), and return the new
current; otherwise return `current` with the state untouched. -/
def DirectionQueue.pop (s : DirectionQueue) : Direction × DirectionQueue :=
  if s.queue.isEmpty then (s.current, s)
  else
    match s.get_last_valid_index with
    | some i =>
        (s.queue.getD i s.current,
          ⟨s.queue.getD i s.current, s.queue.drop (i + 1)⟩)
    | none => (s.current, s)

theorem firstIdx_eq_none {α : Type} (test : α → Bool) (l : List α)
    (h : ∀ d ∈ l, test d = false) : firstIdx test l = none := by
  induction l with
  | nil => rfl
  | cons a t ih =>
      have ha : test a = false := h a (List.mem_cons_self a t)
      have ht : firstIdx test t = none :=
        ih (fun d hd => h d (List.mem_cons_of_mem a hd))
      simp [firstIdx, ha, ht]

theorem firstIdx_eq_some {α : Type} (test : α → Bool) (d0 : α)
    (l : List α) (k : Nat)
    (hk : k < l.length) (hp : test (l.getD k d0) = true)
    (hbefore : ∀ j, j < k → test (l.getD j d0) = false) :
    firstIdx test l = some k := by
  induction l generalizing k with
  | nil => simp at hk
  | cons a t ih =>
      cases k with
      | zero =>
          simp only [List.getD_cons_zero] at hp
          simp [firstIdx, hp]
      | succ k2 =>
          have ha : test a = false := by
            have := hbefore 0 (Nat.succ_pos _)
            simpa using this
          have ht : firstIdx test t = some k2 := by
            refine ih k2 (by simpa using hk) (by simpa using hp) ?_
            intro j hj
            have := hbefore (j + 1) (by omega)
            simpa using this
          simp [firstIdx, ha, ht]

/-- Positions indexed at or past `m` are members of `drop m`. -/
theorem getD_mem_drop {α : Type} (l : List α) (m k : Nat) (d0 : α)
    (hm : m ≤ k) (hk : k < l.length) : l.getD k d0 ∈ l.drop m := by
  have hlen : k - m < (l.drop m).length := by
    simp [List.length_drop]; omega
  have hget : (l.drop m).getD (k - m) d0 = l.getD k d0 := by
    rw [List.getD_eq_getElem?_getD, List.getD_eq_getElem?_getD]
    rw [List.getElem?_eq_getElem hlen, List.getElem?_eq_getElem hk]
    simp only [Option.getD_some]
    rw [List.getElem_drop]
    congr 1
    omega
  rw [← hget, List.getD_eq_getElem?_getD, List.getElem?_eq_getElem hlen]
  exact List.getElem_mem hlen

/-- `getD` through `reverse`: entry `j` of the reversed list is entry
`length - 1 - j` of the original. -/
theorem getD_reverse {α : Type} (l : List α) (j : Nat) (d0 : α)
    (hj : j < l.length) :
    l.reverse.getD j d0 = l.getD (l.length - 1 - j) d0 := by
  have hj' : j < l.reverse.length := by simpa using hj
  have hlt : l.length - 1 - j < l.length := by omega
  rw [List.getD_eq_getElem?_getD, List.getD_eq_getElem?_getD]
  rw [List.getElem?_eq_getElem hj', List.getElem?_eq_getElem hlt]
  simp [List.getElem_reverse]

/-- Under the hypotheses of claim C1, `_get_last_valid_index` finds
exactly the most recent axis-changing entry's index. -/
theorem get_last_valid_index_eq (c : Direction) (q : List Direction) (i : Nat)
    (hi : i < q.length)
    (hvalid : (q.getD i c).axis ≠ c.axis)
    (hafter : ∀ d ∈ q.drop (i + 1), d.axis = c.axis) :
    DirectionQueue.get_last_valid_index ⟨c, q⟩ = some i := by
  have hrev : firstIdx (fun d => decide (d.axis ≠ c.axis)) q.reverse
      = some (q.length - 1 - i) := by
    refine firstIdx_eq_some _ c q.reverse (q.length - 1 - i) ?_ ?_ ?_
    · simp; omega
    · rw [getD_reverse q _ c (by omega)]
      have : q.length - 1 - (q.length - 1 - i) = i := by omega
      rw [this]
      simpa using hvalid
    · intro j hj
      rw [getD_reverse q j c (by omega)]
      have hmem : q.getD (q.length - 1 - j) c ∈ q.drop (i + 1) :=
        getD_mem_drop q (i + 1) (q.length - 1 - j) c (by omega) (by omega)
      have := hafter _ hmem
      simpa using this
  show Option.map (fun j => q.length - j - 1)
      (firstIdx (fun d => decide (d.axis ≠ c.axis)) q.reverse) = some i
  rw [hrev]
  show some (q.length - (q.length - 1 - i) - 1) = some i
  congr 1
  omega

/-- C1: when the pending buffer holds at least one entry whose axis
differs from the current direction's axis, `pop` commits the most
recently pushed such entry `q[i]`, deletes positions `0..i` (keeping the
entries pushed after `i` queued), and returns the new current. -/
theorem pop_commits_most_recent_valid (c : Direction) (q : List Direction)
    (i : Nat)
    (hi : i < q.length)
    (hvalid : (q.getD i c).axis ≠ c.axis)
    (hafter : ∀ d ∈ q.drop (i + 1), d.axis = c.axis) :
    DirectionQueue.pop ⟨c, q⟩ =
      (q.getD i c, ⟨q.getD i c, q.drop (i + 1)⟩) := by
  have hne : q ≠ [] := by
    intro h
    subst h
    simp at hi
  have hempty : q.isEmpty = false := by simpa using hne
  have hidx := get_last_valid_index_eq c q i hi hvalid hafter
  unfold DirectionQueue.pop
  simp [hempty, hidx]

/-- C1 witness: with current `up` and pending `[right, down]`, the valid
entry `right` (index 0) is committed and `down` stays queued. -/
theorem pop_commits_most_recent_valid_witness :
    DirectionQueue.pop ⟨.up, [.right, .down]⟩ =
      (.right, ⟨.right, [.down]⟩) := by
  have h := pop_commits_most_recent_valid .up [.right, .down] 0
    (by decide) (by decide) (by decide)
  simpa using h

/-- C2: when every pending entry shares the current direction's axis
(same-axis repeats and direct reversals, or an empty buffer), `pop`
returns `current` and leaves the whole state unchanged. -/
theorem pop_same_axis_unchanged (c : Direction) (q : List Direction)
    (h : ∀ d ∈ q, d.axis = c.axis) :
    DirectionQueue.pop ⟨c, q⟩ = (c, ⟨c, q⟩) := by
  cases hq : q with
  | nil => rfl
  | cons a t =>
      have hnone : DirectionQueue.get_last_valid_index ⟨c, a :: t⟩ = none := by
        have hfi : firstIdx (fun d => decide (d.axis ≠ c.axis)) (a :: t).reverse
            = none := by
          refine firstIdx_eq_none _ _ ?_
          intro d hd
          have hd' : d ∈ q := by
            rw [hq]
            exact List.mem_reverse.mp hd
          simp [h d hd']
        show Option.map (fun j => (a :: t).length - j - 1)
            (firstIdx (fun d => decide (d.axis ≠ c.axis)) (a :: t).reverse) = none
        rw [hfi]
        rfl
      unfold DirectionQueue.pop
      simp [hnone]

/-- C2 witness: current `up` with pending `[down, up, down]` (a direct
reversal and same-axis repeats) is returned unchanged. -/
theorem pop_same_axis_unchanged_witness :
    DirectionQueue.pop ⟨.up, [.down, .up, .down]⟩ =
      (.up, ⟨.up, [.down, .up, .down]⟩) :=
  pop_same_axis_unchanged .up [.down, .up, .down] (by decide)

/-- C3: on a field of positive size, wrapping lands both coordinates in
`[0, size)` for every integer input, and wrapping is idempotent. -/
theorem wrap_range_and_idempotent (f : Field) (hN : 0 < f.size) (p : Pos) :
    (0 ≤ (f.get_overflow_position p).1 ∧ (f.get_overflow_position p).1 < f.size) ∧
    (0 ≤ (f.get_overflow_position p).2 ∧ (f.get_overflow_position p).2 < f.size) ∧
    f.get_overflow_position (f.get_overflow_position p) =
      f.get_overflow_position p := by
  have hne : f.size ≠ 0 := ne_of_gt hN
  refine ⟨⟨Int.emod_nonneg p.1 hne, Int.emod_lt_of_pos p.1 hN⟩,
    ⟨Int.emod_nonneg p.2 hne, Int.emod_lt_of_pos p.2 hN⟩, ?_⟩
  unfold Field.get_overflow_position
  simp [Int.emod_emod_of_dvd _ (dvd_refl f.size)]

/-- C3 witness: size 20 and the negative coordinate produced by applying
`up` at the top border, `apply up (0, 0) = (0, -1)`, wraps to `(0, 19)`
inside the grid, idempotently. -/
theorem wrap_range_and_idempotent_witness :
    (0 ≤ (Field.get_overflow_position ⟨20⟩ (Direction.apply .up (0, 0))).1 ∧
      (Field.get_overflow_position ⟨20⟩ (Direction.apply .up (0, 0))).1 < (20 : Int)) ∧
    (0 ≤ (Field.get_overflow_position ⟨20⟩ (Direction.apply .up (0, 0))).2 ∧
      (Field.get_overflow_position ⟨20⟩ (Direction.apply .up (0, 0))).2 < (20 : Int)) ∧
    Field.get_overflow_position ⟨20⟩
        (Field.get_overflow_position ⟨20⟩ (Direction.apply .up (0, 0))) =
      Field.get_overflow_position ⟨20⟩ (Direction.apply .up (0, 0)) :=
  wrap_range_and_idempotent ⟨20⟩ (by norm_num) (Direction.apply .up (0, 0))

/-- The snake, src/game.py lines 139-179: the alive flag, the body cells
(head first), and the owned direction queue.  The field the constructor
stores is passed to `move` explicitly here. -/
structure Snake where
  alive : Bool
  blocks : List Pos
  dirQueue : DirectionQueue
deriving DecidableEq

/-- `Snake.head`, src/game.py lines 162-163: the first body cell
(`tuple(list(...))` is the identity on an integer pair). -/
def Snake.head (s : Snake) : Pos := s.blocks.headD (0, 0)

/-- `Snake.change_direction`, src/game.py lines 147-148. -/
def Snake.change_direction (s : Snake) (d : Direction) : Snake :=
  { s with dirQueue := s.dirQueue.push d }

/-- `Snake.__len__`, src/game.py lines 175-176. -/
def Snake.length (s : Snake) : Nat := s.blocks.length

/-- `Snake.__contains__`, src/game.py lines 172-173. -/
def Snake.occupies (s : Snake) (pos : Pos) : Bool := s.blocks.contains pos

/-- `Snake.move`, src/game.py lines 150-160: resolve the direction, wrap
the shifted head, insert it at the front of the body, retract the tail
unless the new head landed on the food, and clear the alive flag when the
head occurs among the remaining body cells. -/
def Snake.move (f : Field) (s : Snake) (foodPos : Pos) : Snake :=
  let popped := s.dirQueue.pop
  let newHead := f.get_overflow_position (popped.1.apply (s.blocks.headD (0, 0)))
  let blocks1 := newHead :: s.blocks
  let blocks2 := if newHead ≠ foodPos then blocks1.dropLast else blocks1
  let alive2 := if blocks2.headD (0, 0) ∈ blocks2.drop 1 then false else s.alive
  { alive := alive2, blocks := blocks2, dirQueue := popped.2 }

/-- C4: `move` performs exactly one head insertion and at most one tail
removal: on the food cell the body is the new head consed onto the old
body (length grows by one, the old tail cell stays occupied); on any
other cell the old tail is dropped and the length is unchanged. -/
theorem move_growth_and_retraction (f : Field) (s : Snake) (food : Pos)
    (newHead : Pos)
    (halive : s.alive = true) (hne : s.blocks ≠ [])
    (hdef : newHead =
      f.get_overflow_position
        (Direction.apply (s.dirQueue.pop).1 (s.blocks.headD (0, 0)))) :
    (Snake.move f s food).blocks =
      (if newHead = food then newHead :: s.blocks
       else (newHead :: s.blocks).dropLast) ∧
    (newHead = food →
      (Snake.move f s food).length = s.length + 1 ∧
      s.blocks.getLast hne ∈ (Snake.move f s food).blocks) ∧
    (newHead ≠ food → (Snake.move f s food).length = s.length) := by
  have hblocks : (Snake.move f s food).blocks =
      if newHead ≠ food then (newHead :: s.blocks).dropLast
      else newHead :: s.blocks := by
    rw [hdef]
    rfl
  by_cases hfood : newHead = food
  · refine ⟨?_, ?_, ?_⟩
    · rw [hblocks]
      simp [hfood]
    · intro _
      refine ⟨?_, ?_⟩
      · simp [Snake.length, hblocks, hfood]
      · rw [hblocks]
        simp [hfood, List.getLast_mem]
    · intro h
      exact absurd hfood h
  · refine ⟨?_, ?_, ?_⟩
    · rw [hblocks]
      simp [hfood]
    · intro h
      exact absurd h hfood
    · intro _
      simp [Snake.length, hblocks, hfood]

/-- C4 witness: on a 20-field, a one-cell snake at (10, 10) heading right
moves onto food at (11, 10) and grows to two cells, the old tail cell
(10, 10) staying occupied. -/
theorem move_growth_and_retraction_witness :
    (Snake.move ⟨20⟩ ⟨true, [(10, 10)], ⟨.right, []⟩⟩ (11, 10)).blocks =
      (if ((11, 10) : Pos) = (11, 10) then ((11, 10) : Pos) :: [(10, 10)]
       else (((11, 10) : Pos) :: [(10, 10)]).dropLast) ∧
    (((11, 10) : Pos) = (11, 10) →
      (Snake.move ⟨20⟩ ⟨true, [(10, 10)], ⟨.right, []⟩⟩ (11, 10)).length = 2 ∧
      [((10 : Int), (10 : Int))].getLast (by decide) ∈
        (Snake.move ⟨20⟩ ⟨true, [(10, 10)], ⟨.right, []⟩⟩ (11, 10)).blocks) ∧
    (((11, 10) : Pos) ≠ (11, 10) →
      (Snake.move ⟨20⟩ ⟨true, [(10, 10)], ⟨.right, []⟩⟩ (11, 10)).length = 1) :=
  move_growth_and_retraction ⟨20⟩ ⟨true, [(10, 10)], ⟨.right, []⟩⟩ (11, 10)
    (11, 10) rfl (by decide) (by decide)

/-- C5: for an alive snake, `move` clears the alive flag exactly when the
new head occurs among the post-move body cells at index 1 or later, i.e.
the self-collision test runs after this call's tail retraction. -/
theorem move_collision_iff (f : Field) (s : Snake) (food : Pos)
    (halive : s.alive = true) :
    ((Snake.move f s food).alive = false ↔
      (Snake.move f s food).head ∈ (Snake.move f s food).blocks.drop 1) := by
  have halive2 : (Snake.move f s food).alive =
      (if (Snake.move f s food).head ∈ (Snake.move f s food).blocks.drop 1
       then false else s.alive) := rfl
  rw [halive2]
  by_cases hc :
      (Snake.move f s food).head ∈ (Snake.move f s food).blocks.drop 1
  · rw [if_pos hc]
    exact iff_of_true rfl hc
  · rw [if_neg hc]
    refine iff_of_false ?_ hc
    rw [halive]
    simp

/-- C5 witness: a four-cell snake turning down into the cell its own tail
vacates this very tick stays alive: the collision test sees the
post-retraction body. -/
theorem move_collision_iff_witness :
    ((Snake.move ⟨20⟩ ⟨true, [(0, 0), (1, 0), (1, 1), (0, 1)], ⟨.down, []⟩⟩
        (5, 5)).alive = false ↔
      (Snake.move ⟨20⟩ ⟨true, [(0, 0), (1, 0), (1, 1), (0, 1)], ⟨.down, []⟩⟩
        (5, 5)).head ∈
      (Snake.move ⟨20⟩ ⟨true, [(0, 0), (1, 0), (1, 1), (0, 1)], ⟨.down, []⟩⟩
        (5, 5)).blocks.drop 1) :=
  move_collision_iff ⟨20⟩ ⟨true, [(0, 0), (1, 0), (1, 1), (0, 1)], ⟨.down, []⟩⟩
    (5, 5) rfl

/-- The level enumeration `Game.Level`, src/game.py lines 222-225. -/
inductive Level
  | easy
  | medium
  | hard
deriving DecidableEq

/-- The numeric value (1, 2 or 4) of a level, src/game.py lines 222-225. -/
def Level.value : Level → Int
  | .easy => 1
  | .medium => 2
  | .hard => 4

/-- `Food.respawn`, src/game.py lines 190-196, with the random draws made
explicit: while the candidate position lies in the snake's body, draw the
next sample from the stream `rng` (one stream entry per loop iteration,
standing for the `randint` pair).  `fuel` bounds the number of draws;
`none` means the loop was still running when the fuel ran out.  On exit
the committed position and the next unused stream index are returned. -/
def respawnFuel : Nat → (Nat → Pos) → Nat → Pos → List Pos → Option (Pos × Nat)
  | 0, _, idx, pos, body => if pos ∈ body then none else some (pos, idx)
  | fuel + 1, rng, idx, pos, body =>
      if pos ∈ body then respawnFuel fuel rng (idx + 1) (rng idx) body
      else some (pos, idx)

/-- `Food.__init__`, src/game.py lines 184-188: the position starts at the
snake's head and `respawn` immediately runs the rejection loop on it. -/
def foodInit (fuel : Nat) (rng : Nat → Pos) (idx : Nat) (body : List Pos) :
    Option (Pos × Nat) :=
  respawnFuel fuel rng idx (body.headD (0, 0)) body

/-- A cell of a size-`N` grid: the range `random.randint(0, N - 1)` draws
both coordinates from in `Food.respawn`. -/
def inGrid (N : Int) (p : Pos) : Prop :=
  0 ≤ p.1 ∧ p.1 < N ∧ 0 ≤ p.2 ∧ p.2 < N

/-- The game state, src/game.py lines 221-261: field, snake, food
position, level, the cached top-bar score, and the write-only `_running`
flag a QUIT event clears.  The injected stream `rng` with cursor `rngIdx`
stands for the global `random` module used by `Food.respawn`. -/
structure Game where
  field : Field
  snake : Snake
  foodPos : Pos
  level : Level
  topBarScore : Int
  running : Bool
  rng : Nat → Pos
  rngIdx : Nat

/-- `Game.get_score`, src/game.py lines 236-237: one less than the body
length, times the level value. -/
def Game.get_score (g : Game) : Int :=
  ((g.snake.length : Int) - 1) * g.level.value

/-- `Game.get_score` of the src/snake.py variant, lines 182-183 there:
the body length times the level value, without the minus one. -/
def Game.get_score_snake_variant (g : Game) : Int :=
  (g.snake.length : Int) * g.level.value

/-- `Game._move`, src/game.py lines 242-247: move the snake toward the
current food; if the food cell was eaten, respawn the food (with at most
`fuel` draws) and refresh the cached top-bar score. -/
def Game.move (fuel : Nat) (g : Game) : Option Game :=
  let s2 := Snake.move g.field g.snake g.foodPos
  if g.foodPos = s2.head then
    match respawnFuel fuel g.rng g.rngIdx g.foodPos s2.blocks with
    | some pi =>
        some { g with snake := s2, foodPos := pi.1, rngIdx := pi.2,
                      topBarScore := Game.get_score { g with snake := s2 } }
    | none => none
  else
    some { g with snake := s2 }

/-- The event kinds `Game.update` dispatches on, src/game.py lines
249-261: QUIT, KEYDOWN (already mapped by the `direction` key-mapping
function to an optional direction), the MOVEEVENT timer tick, and
anything else. -/
inductive GameEvent
  | quit
  | keydown (dir : Option Direction)
  | moveevent
  | other

/-- `Game.update`, src/game.py lines 249-261, folded over the events of
one frame: QUIT clears the (otherwise unread) running flag, a mapped
KEYDOWN pushes its direction, MOVEEVENT runs one simulation tick; `none`
propagates a food respawn that ran out of fuel. -/
def Game.update (fuel : Nat) (g : Game) : List GameEvent → Option Game
  | [] => some g
  | e :: rest =>
      match e with
      | .quit => Game.update fuel { g with running := false } rest
      | .keydown (some d) =>
          Game.update fuel { g with snake := g.snake.change_direction d } rest
      | .keydown none => Game.update fuel g rest
      | .moveevent =>
          match Game.move fuel g with
          | some g2 => Game.update fuel g2 rest
          | none => none
      | .other => Game.update fuel g rest

/-- A freshly started game: one-segment snake at the centre of the
20-field, easy level. -/
def freshGame : Game :=
  { field := ⟨20⟩
    snake := ⟨true, [(10, 10)], ⟨.right, []⟩⟩
    foodPos := (5, 5)
    level := .easy
    topBarScore := 0
    running := true
    rng := fun _ => (0, 0)
    rngIdx := 0 }

/-- C6 counterexample: the src/snake.py variant of `get_score` gives a
fresh one-segment snake on the easy level score 1, not
`(length - 1) * levelValue = 0`. -/
theorem get_score_claim_counterexample :
    Game.get_score_snake_variant freshGame ≠
      ((freshGame.snake.length : Int) - 1) * freshGame.level.value := by
  decide

/-- C6 amended: the src/game.py `get_score` returns
`(length - 1) * levelValue`, so a one-segment snake scores zero there,
while the src/snake.py variant returns `length * levelValue`, so the same
snake scores the level value (1, 2 or 4). -/
theorem get_score_formulas (g : Game) :
    Game.get_score g = ((g.snake.length : Int) - 1) * g.level.value ∧
    Game.get_score_snake_variant g = (g.snake.length : Int) * g.level.value ∧
    (g.snake.length = 1 →
      Game.get_score g = 0 ∧
      Game.get_score_snake_variant g = g.level.value) := by
  refine ⟨rfl, rfl, ?_⟩
  intro h1
  unfold Game.get_score Game.get_score_snake_variant
  rw [h1]
  simp

/-- C6 amended witness: the fresh one-segment game scores 0 under the
src/game.py formula and 1 under the src/snake.py one. -/
theorem get_score_formulas_witness :
    Game.get_score freshGame = 0 ∧
    Game.get_score_snake_variant freshGame = (1 : Int) :=
  (get_score_formulas freshGame).2.2 rfl

/-- `Snake.move` never resurrects: a dead snake stays dead through a
move (`_alive` is only ever written to `False`). -/
theorem move_keeps_dead (f : Field) (s : Snake) (food : Pos)
    (hdead : s.alive = false) : (Snake.move f s food).alive = false := by
  have h2 : (Snake.move f s food).alive =
      (if (Snake.move f s food).head ∈ (Snake.move f s food).blocks.drop 1
       then false else s.alive) := rfl
  rw [h2, hdead]
  simp

/-- When `Game._move` returns, the stored snake is the moved snake,
whether or not the food was eaten. -/
theorem game_move_snake (fuel : Nat) (g g2 : Game)
    (h : Game.move fuel g = some g2) :
    g2.snake = Snake.move g.field g.snake g.foodPos := by
  simp only [Game.move] at h
  split at h
  · split at h
    · injection h with h2
      subst h2
      rfl
    · exact Option.noConfusion h
  · injection h with h2
    subst h2
    rfl

/-- A game whose snake has already died. -/
def deadGame : Game :=
  { field := ⟨20⟩
    snake := ⟨false, [(0, 0), (1, 0)], ⟨.right, []⟩⟩
    foodPos := (5, 5)
    level := .easy
    topBarScore := 0
    running := true
    rng := fun _ => (0, 0)
    rngIdx := 0 }

/-- C7 counterexample: `Game.update` runs `snake.move` on a MOVEEVENT
even though the snake is dead: the dead two-cell snake's body changes
from [(0,0), (1,0)] to [(1,0), (0,0)] on the tick. -/
theorem dead_snake_tick_counterexample :
    deadGame.snake.alive = false ∧
    Option.map (fun g2 => g2.snake.blocks)
        (Game.update 0 deadGame [.moveevent]) = some [(1, 0), (0, 0)] ∧
    deadGame.snake.blocks = [(0, 0), (1, 0)] := by
  refine ⟨rfl, ?_, rfl⟩
  decide

/-- C7 amended: `Game.update` does not test `is_alive`: a MOVEEVENT calls
`snake.move` even on a dead snake, shifting the body exactly as a live
move would; only the alive flag stays false (no transition leaves Dead).
The dead-state skip lives outside `Game`, in `App.loop`, which discards
the game object once `is_running()` is false. -/
theorem dead_snake_tick_moves_anyway (fuel : Nat) (g : Game)
    (hdead : g.snake.alive = false) :
    Option.all
      (fun g2 =>
        g2.snake.blocks == (Snake.move g.field g.snake g.foodPos).blocks &&
        g2.snake.alive == false)
      (Game.update fuel g [.moveevent]) = true := by
  cases hmv : Game.move fuel g with
  | none => simp [Game.update, hmv]
  | some g2 =>
      have hsn := game_move_snake fuel g g2 hmv
      have halive2 : (Snake.move g.field g.snake g.foodPos).alive = false :=
        move_keeps_dead _ _ _ hdead
      simp [Game.update, hmv, hsn, halive2]

/-- C7 amended witness: the dead game's tick really performs the move. -/
theorem dead_snake_tick_moves_anyway_witness :
    Option.all
      (fun g2 =>
        g2.snake.blocks ==
          (Snake.move deadGame.field deadGame.snake deadGame.foodPos).blocks &&
        g2.snake.alive == false)
      (Game.update 0 deadGame [.moveevent]) = true :=
  dead_snake_tick_moves_anyway 0 deadGame rfl

/-- Whatever the respawn loop returns lies outside the body. -/
theorem respawnFuel_result_not_mem (rng : Nat → Pos) (body : List Pos) :
    ∀ (fuel idx : Nat) (pos p : Pos) (idx2 : Nat),
      respawnFuel fuel rng idx pos body = some (p, idx2) → p ∉ body := by
  intro fuel
  induction fuel with
  | zero =>
      intro idx pos p idx2 h
      simp only [respawnFuel] at h
      by_cases hp : pos ∈ body
      · rw [if_pos hp] at h
        exact Option.noConfusion h
      · rw [if_neg hp] at h
        simp only [Option.some.injEq, Prod.mk.injEq] at h
        obtain ⟨h1, h2⟩ := h
        subst h1
        exact hp
  | succ fuel ih =>
      intro idx pos p idx2 h
      simp only [respawnFuel] at h
      by_cases hp : pos ∈ body
      · rw [if_pos hp] at h
        exact ih (idx + 1) (rng idx) p idx2 h
      · rw [if_neg hp] at h
        simp only [Option.some.injEq, Prod.mk.injEq] at h
        obtain ⟨h1, h2⟩ := h
        subst h1
        exact hp

/-- C8: whenever the respawn rejection loop exits, the committed food
position is not a member of the snake's body. -/
theorem respawn_not_in_body (fuel : Nat) (rng : Nat → Pos) (idx : Nat)
    (pos : Pos) (body : List Pos) (p : Pos) (idx2 : Nat)
    (h : respawnFuel fuel rng idx pos body = some (p, idx2)) :
    p ∉ body :=
  respawnFuel_result_not_mem rng body fuel idx pos p idx2 h

/-- C8 witness: starting on the occupied cell (0,0) with a stream giving
(1,1), the loop exits and the committed cell avoids the body. -/
theorem respawn_not_in_body_witness :
    ((1, 1) : Pos) ∉ [((0, 0) : Pos)] :=
  respawn_not_in_body 1 (fun _ => (1, 1)) 0 (0, 0) [(0, 0)] (1, 1) 1 (by decide)

/-- Enough fuel to reach the first stream entry off the body makes the
loop exit. -/
theorem respawnFuel_isSome (rng : Nat → Pos) (body : List Pos) :
    ∀ (k idx : Nat) (pos : Pos), rng (idx + k) ∉ body →
      (respawnFuel (k + 1) rng idx pos body).isSome = true := by
  intro k
  induction k with
  | zero =>
      intro idx pos hfree
      simp only [respawnFuel]
      by_cases hp : pos ∈ body
      · rw [if_pos hp]
        rw [if_neg (by simpa using hfree)]
        rfl
      · rw [if_neg hp]
        rfl
  | succ k ih =>
      intro idx pos hfree
      simp only [respawnFuel]
      by_cases hp : pos ∈ body
      · rw [if_pos hp]
        refine ih (idx + 1) (rng idx) ?_
        have harith : idx + 1 + k = idx + (k + 1) := by omega
        rw [harith]
        exact hfree
      · rw [if_neg hp]
        rfl

/-- On a fully occupied grid the loop never exits, whatever the fuel. -/
theorem respawnFuel_none_of_full (rng : Nat → Pos) (body : List Pos)
    (N : Int)
    (hfull : ∀ q : Pos, inGrid N q → q ∈ body)
    (hrng : ∀ n, inGrid N (rng n)) :
    ∀ (fuel idx : Nat) (pos : Pos), inGrid N pos →
      respawnFuel fuel rng idx pos body = none := by
  intro fuel
  induction fuel with
  | zero =>
      intro idx pos hpos
      simp only [respawnFuel]
      rw [if_pos (hfull pos hpos)]
  | succ fuel ih =>
      intro idx pos hpos
      simp only [respawnFuel]
      rw [if_pos (hfull pos hpos)]
      exact ih (idx + 1) (rng idx) (hrng idx)

/-- C9: the respawn loop is unbounded rejection sampling: whenever the
injected stream eventually samples a cell off the snake, enough fuel
makes the loop exit; and when the snake occupies every cell of the grid
(the initial position and all samples being grid cells), no amount of
fuel ever makes it exit. -/
theorem respawn_termination (rng : Nat → Pos) (idx : Nat) (pos : Pos)
    (body : List Pos) (N : Int) :
    (∀ k, rng (idx + k) ∉ body →
      (respawnFuel (k + 1) rng idx pos body).isSome = true) ∧
    ((∀ q : Pos, inGrid N q → q ∈ body) → inGrid N pos →
      (∀ n, inGrid N (rng n)) →
      ∀ fuel, respawnFuel fuel rng idx pos body = none) := by
  constructor
  · intro k hfree
    exact respawnFuel_isSome rng body k idx pos hfree
  · intro hfull hpos hrng fuel
    exact respawnFuel_none_of_full rng body N hfull hrng fuel idx pos hpos

/-- C9 witness: one sample of a free cell ends the loop, while on the
fully snake-covered 1-cell grid the loop returns no position for fuel 5
(nor any other fuel). -/
theorem respawn_termination_witness :
    (respawnFuel 1 (fun _ => (1, 1)) 0 (0, 0) [(0, 0)]).isSome = true ∧
    respawnFuel 5 (fun _ => (0, 0)) 0 (0, 0) [(0, 0)] = none :=
  ⟨(respawn_termination (fun _ => (1, 1)) 0 (0, 0) [(0, 0)] 1).1 0 (by decide),
   (respawn_termination (fun _ => (0, 0)) 0 (0, 0) [(0, 0)] 1).2
     (fun q hq => by
       obtain ⟨a, b⟩ := q
       obtain ⟨h1, h2, h3, h4⟩ := hq
       have ha : a = 0 := by omega
       have hb : b = 0 := by omega
       subst ha
       subst hb
       decide)
     ⟨by decide, by decide, by decide, by decide⟩
     (fun n => ⟨by decide, by decide, by decide, by decide⟩)
     5⟩

/-- A candidate already off the body is committed with no draw. -/
theorem respawnFuel_of_not_mem (rng : Nat → Pos) (body : List Pos)
    (fuel idx : Nat) (pos : Pos) (hp : pos ∉ body) :
    respawnFuel fuel rng idx pos body = some (pos, idx) := by
  cases fuel with
  | zero =>
      simp only [respawnFuel]
      rw [if_neg hp]
  | succ fuel =>
      simp only [respawnFuel]
      rw [if_neg hp]

/-- When the loop starts on an occupied cell, the committed position is a
stream sample: the one drawn just before the returned cursor. -/
theorem respawnFuel_fresh_sample (rng : Nat → Pos) (body : List Pos) :
    ∀ (fuel idx : Nat) (pos p : Pos) (idx2 : Nat),
      pos ∈ body →
      respawnFuel fuel rng idx pos body = some (p, idx2) →
      idx + 1 ≤ idx2 ∧ p = rng (idx2 - 1) := by
  intro fuel
  induction fuel with
  | zero =>
      intro idx pos p idx2 hp h
      simp only [respawnFuel] at h
      rw [if_pos hp] at h
      exact Option.noConfusion h
  | succ fuel ih =>
      intro idx pos p idx2 hp h
      simp only [respawnFuel] at h
      rw [if_pos hp] at h
      by_cases hnext : rng idx ∈ body
      · have hrec := ih (idx + 1) (rng idx) p idx2 hnext h
        exact ⟨by omega, hrec.2⟩
      · rw [respawnFuel_of_not_mem rng body fuel (idx + 1) (rng idx) hnext] at h
        simp only [Option.some.injEq, Prod.mk.injEq] at h
        obtain ⟨h1, h2⟩ := h
        subst h2
        refine ⟨by omega, ?_⟩
        have harith : idx + 1 - 1 = idx := by omega
        rw [harith, ← h1]

/-- C10: `Food.__init__` starts the rejection loop on the snake's head, a
cell the snake always occupies, so the loop draws at least once: whenever
the constructor returns, the committed position is a freshly drawn stream
sample (the one just before the returned cursor), lies outside the body,
and in particular differs from the snake's head cell. -/
theorem food_init_fresh (fuel : Nat) (rng : Nat → Pos) (idx : Nat)
    (body : List Pos) (p : Pos) (idx2 : Nat)
    (hne : body ≠ [])
    (h : foodInit fuel rng idx body = some (p, idx2)) :
    p ∉ body ∧ p ≠ body.headD (0, 0) ∧ idx + 1 ≤ idx2 ∧ p = rng (idx2 - 1) := by
  unfold foodInit at h
  have hhead : body.headD (0, 0) ∈ body := by
    cases body with
    | nil => exact absurd rfl hne
    | cons a t => simp
  have hfree : p ∉ body :=
    respawnFuel_result_not_mem rng body fuel idx (body.headD (0, 0)) p idx2 h
  have hsample :=
    respawnFuel_fresh_sample rng body fuel idx (body.headD (0, 0)) p idx2 hhead h
  refine ⟨hfree, ?_, hsample.1, hsample.2⟩
  intro hcontra
  rw [hcontra] at hfree
  exact hfree hhead

/-- C10 witness: a one-cell snake at (0,0) with a stream sampling (1,1):
the constructor commits (1,1), a fresh sample differing from the head. -/
theorem food_init_fresh_witness :
    ((1, 1) : Pos) ∉ [((0, 0) : Pos)] ∧
    ((1, 1) : Pos) ≠ [((0, 0) : Pos)].headD (0, 0) ∧
    0 + 1 ≤ 1 ∧ ((1, 1) : Pos) = (fun _ => ((1, 1) : Pos)) (1 - 1) :=
  food_init_fresh 1 (fun _ => (1, 1)) 0 [(0, 0)] (1, 1) 1 (by decide) (by decide)

end SnakeGame
